import Mathlib

/-!
Shallow embedding of the pyan graph writers (`pyan/writers.py`) and of the
option plumbing in `pyan/main.py`, together with theorems settling the
specification claims about them.

The presentation graph structures mirror the read-only contract the writers
consume: a graph object with `nodes`, `subgraphs`, `edges` and `grouped`;
each node exposes identifier, label, fill color, text color and group; each
edge exposes source, target, flavor and color.
-/

namespace Pyan

/-- A presentation-graph node, as consumed by the writers. -/
structure VNode where
  id : String
  label : String
  fill_color : String
  text_color : String
  group : String
deriving DecidableEq

/-- A presentation-graph edge, as consumed by the writers. -/
structure VEdge where
  source : VNode
  target : VNode
  flavor : String
  color : String
deriving DecidableEq

/-- The presentation graph: nodes at this level, nested subgraphs,
the edge list (writers query it only on the top-level object), and the
`grouped` flag. -/
inductive VisualGraph where
  | mk (id : String) (label : String) (nodes : List VNode)
      (subgraphs : List VisualGraph) (edges : List VEdge) (grouped : Bool)

def VisualGraph.id : VisualGraph → String
  | .mk i _ _ _ _ _ => i

def VisualGraph.label : VisualGraph → String
  | .mk _ l _ _ _ _ => l

def VisualGraph.nodes : VisualGraph → List VNode
  | .mk _ _ ns _ _ _ => ns

def VisualGraph.subgraphs : VisualGraph → List VisualGraph
  | .mk _ _ _ sgs _ _ => sgs

def VisualGraph.edges : VisualGraph → List VEdge
  | .mk _ _ _ _ es _ => es

def VisualGraph.grouped : VisualGraph → Bool
  | .mk _ _ _ _ _ g => g

mutual

/-- All nodes of a graph in the order `Writer.write_subgraph` visits them:
this level's nodes first, then the nodes of each subgraph, recursively. -/
def VisualGraph.allNodes : VisualGraph → List VNode
  | .mk _ _ ns sgs _ _ => ns ++ allNodesList sgs

def allNodesList : List VisualGraph → List VNode
  | [] => []
  | g :: gs => g.allNodes ++ allNodesList gs

end

/-- Python string repetition `s * n` for a nonnegative count. -/
def sRep (s : String) : Nat → String
  | 0 => ""
  | n + 1 => s ++ sRep s n

/-- Python string repetition `s * i` for an `int` count: a nonpositive
count yields the empty string. -/
def sRepInt (s : String) (i : Int) : String :=
  sRep s i.toNat

/-- The method table of a concrete writer over its own state type: the
abstract methods of `Writer` in `writers.py`.  A method returning
`Except.error` models a raised exception (for example the `KeyError`
raised by `TgfWriter.write_edge` on an unregistered endpoint). -/
structure WriterImpl (σ : Type) where
  start_graph : σ → Except String σ
  start_subgraph : VisualGraph → σ → Except String σ
  write_node : VNode → σ → Except String σ
  start_edges : σ → Except String σ
  write_edge : VEdge → σ → Except String σ
  finish_edges : σ → Except String σ
  finish_subgraph : VisualGraph → σ → Except String σ
  finish_graph : σ → Except String σ

/-- Sequencing of a fallible per-element method over a list, as done by the
`for` loops in `Writer.write_subgraph` and `Writer.write_edges`. -/
def foldME {α σ : Type} (f : α → σ → Except String σ) : List α → σ → Except String σ
  | [], s => .ok s
  | a :: as, s =>
    match f a s with
    | .error e => .error e
    | .ok s' => foldME f as s'

mutual

/-- `Writer.write_subgraph`: start the subgraph, write this level's nodes,
recurse into each subgraph, finish the subgraph.  A raised exception
(`Except.error`) propagates, as in Python. -/
def write_subgraph {σ : Type} (impl : WriterImpl σ) (g : VisualGraph) (s : σ) :
    Except String σ :=
  match g with
  | .mk i l ns sgs es gr =>
    Except.bind (impl.start_subgraph (.mk i l ns sgs es gr) s) (fun s1 =>
      Except.bind (foldME impl.write_node ns s1) (fun s2 =>
        Except.bind (write_subgraphList impl sgs s2) (fun s3 =>
          impl.finish_subgraph (.mk i l ns sgs es gr) s3)))

def write_subgraphList {σ : Type} (impl : WriterImpl σ) (gs : List VisualGraph) (s : σ) :
    Except String σ :=
  match gs with
  | [] => .ok s
  | g :: rest =>
    Except.bind (write_subgraph impl g s) (fun s1 =>
      write_subgraphList impl rest s1)

end

/-- `Writer.write_edges`: start the edge section, then write every edge of
the top-level graph object, then finish the section. -/
def write_edges {σ : Type} (impl : WriterImpl σ) (g : VisualGraph) (s : σ) :
    Except String σ :=
  Except.bind (impl.start_edges s) (fun s1 =>
    Except.bind (foldME impl.write_edge g.edges s1) (fun s2 =>
      impl.finish_edges s2))

/-- `Writer.run` after `open` has succeeded: `start_graph`, then
`write_subgraph` on the whole graph, then `write_edges`, then
`finish_graph`.  (`open` and `close` themselves are modelled separately by
`WriterCore`; neither emits output lines.) -/
def runFrom {σ : Type} (impl : WriterImpl σ) (g : VisualGraph) (s : σ) :
    Except String σ :=
  Except.bind (impl.start_graph s) (fun s1 =>
    Except.bind (write_subgraph impl g s1) (fun s2 =>
      Except.bind (write_edges impl g s2) (fun s3 =>
        impl.finish_graph s3)))

/-! ## The trivial-graph-format writer (`TgfWriter`) -/

/-- The mutable state of a `TgfWriter` during a run: the lines written so
far, the counter `i` (starting at 1), the node-to-integer-id map (an
association list with the most recent binding first, as a Python `dict`
update behaves under lookup), and the inherited indentation state. -/
structure TgfState where
  lines : List String
  i : Nat
  id_map : List (VNode × Nat)
  indent_level : Int
  tabstop : String
deriving DecidableEq

/-- Lookup in the node-to-id map; `none` models a Python `KeyError`. -/
def idLookup (m : List (VNode × Nat)) (n : VNode) : Option Nat :=
  match m with
  | [] => none
  | (k, v) :: rest => if k = n then some v else idLookup rest n

/-- `Writer.write` for the TGF state: append one line prefixed by
`tabstop * indent_level`. -/
def tgfWrite (s : TgfState) (line : String) : TgfState :=
  { s with lines := s.lines ++ [sRepInt s.tabstop s.indent_level ++ line] }

/-- The edge marker computed by `TgfWriter.write_edge`:
`"U" if edge.flavor == "uses" else "D"`. -/
def tgfFlavorMark (e : VEdge) : String :=
  if e.flavor = "uses" then "U" else "D"

/-- `TgfWriter` as a method table.  `write_node` emits
`"%d %s" % (self.i, node.label)`, registers the node under id `i` and
increments `i`; `start_edges` emits the `"#"` separator; `write_edge`
looks both endpoints up in `id_map` (raising `KeyError` when absent) and
emits `"%s %s %s" % (source_id, target_id, flavor)`. -/
def TgfWriter : WriterImpl TgfState where
  start_graph := fun s => .ok s
  start_subgraph := fun _ s => .ok s
  write_node := fun n s =>
    .ok { tgfWrite s (Nat.repr s.i ++ " " ++ n.label) with
          id_map := (n, s.i) :: s.id_map, i := s.i + 1 }
  start_edges := fun s => .ok (tgfWrite s "#")
  write_edge := fun e s =>
    match idLookup s.id_map e.source, idLookup s.id_map e.target with
    | some a, some b =>
        .ok (tgfWrite s (Nat.repr a ++ " " ++ Nat.repr b ++ " " ++ tgfFlavorMark e))
    | _, _ => .error "KeyError"
  finish_edges := fun s => .ok s
  finish_subgraph := fun _ s => .ok s
  finish_graph := fun s => .ok s

/-- The initial `TgfWriter` state: empty output, counter 1, empty id map,
indentation 0, default tabstop of four spaces. -/
def tgfInit : TgfState :=
  { lines := [], i := 1, id_map := [], indent_level := 0, tabstop := "    " }

/-- A full `TgfWriter.run` on a graph, returning the emitted lines (or the
raised exception). -/
def tgfRun (g : VisualGraph) : Except String (List String) :=
  Except.map TgfState.lines (runFrom TgfWriter g tgfInit)

/-! ## The graph-description-language writer (`DotWriter`) -/

/-- The mutable state of a `DotWriter` during a run: lines written so far,
indentation state, and the rendered `options` string computed in the
constructor. -/
structure DotState where
  lines : List String
  indent_level : Int
  tabstop : String
  options : String
deriving DecidableEq

/-- `Writer.write` for the dot state. -/
def dotWrite (s : DotState) (line : String) : DotState :=
  { s with lines := s.lines ++ [sRepInt s.tabstop s.indent_level ++ line] }

/-- The `options` string computed by `DotWriter.__init__`: the given list
(defaulting to empty), extended with `clusterrank="local"` when the graph
is grouped, joined with `", "`. -/
def dotOptionsStr (options : List String) (grouped : Bool) : String :=
  String.intercalate ", "
    (if grouped then options ++ ["clusterrank=\"local\""] else options)

/-- The node statement emitted by `DotWriter.write_node` (without the
indentation prefix added by `write`). -/
def dotNodeStmt (n : VNode) : String :=
  n.id ++ " [label=\"" ++ n.label ++ "\", style=\"filled\", fillcolor=\"" ++
    n.fill_color ++ "\", fontcolor=\"" ++ n.text_color ++ "\", group=\"" ++
    n.group ++ "\"];"

/-- The edge statement emitted by `DotWriter.write_edge` (without the
indentation prefix added by `write`; the four leading spaces are literal in
the source's format string): style `dashed` when the flavor is `defines`,
otherwise style `solid`, each with a `color` attribute. -/
def dotEdgeStmt (e : VEdge) : String :=
  if e.flavor = "defines" then
    "    " ++ e.source.id ++ " -> " ++ e.target.id ++
      " [style=\"dashed\",  color=\"" ++ e.color ++ "\"];"
  else
    "    " ++ e.source.id ++ " -> " ++ e.target.id ++
      " [style=\"solid\",  color=\"" ++ e.color ++ "\"];"

/-- `DotWriter` as a method table, following `writers.py` line by line:
`start_graph` opens the `digraph G` block and writes the `graph [...]`
attribute line, then indents; `start_subgraph` opens a
`subgraph cluster_<id>` block (the format string carries a trailing
newline), indents, and writes the translucent fill and label attribute
line; `finish_subgraph` dedents and closes the block; `finish_graph`
closes the digraph. -/
def DotWriter : WriterImpl DotState where
  start_graph := fun s =>
    .ok { dotWrite (dotWrite s "digraph G \x7b")
            ("    graph [" ++ s.options ++ "];") with
          indent_level := s.indent_level + 1 }
  start_subgraph := fun g s =>
    .ok (dotWrite
          { dotWrite s ("subgraph cluster_" ++ g.id ++ " \x7b\n") with
            indent_level := s.indent_level + 1 }
          ("graph [style=\"filled,rounded\", fillcolor=\"#80808018\", label=\"" ++
            g.label ++ "\"];"))
  write_node := fun n s => .ok (dotWrite s (dotNodeStmt n))
  start_edges := fun s => .ok s
  write_edge := fun e s => .ok (dotWrite s (dotEdgeStmt e))
  finish_edges := fun s => .ok s
  finish_subgraph := fun _ s =>
    .ok (dotWrite { s with indent_level := s.indent_level - 1 } "\x7d")
  finish_graph := fun s => .ok (dotWrite s "\x7d")

/-- The initial `DotWriter` state for a run over graph `g` with the given
option list (as passed by `main`, e.g. `["rankdir=TB"]`). -/
def dotInit (options : List String) (g : VisualGraph) : DotState :=
  { lines := [], indent_level := 0, tabstop := "    ",
    options := dotOptionsStr options g.grouped }

/-- A full `DotWriter.run` on a graph, returning the emitted lines.  (The
run never raises: every `DotWriter` method is total.) -/
def dotRunLines (options : List String) (g : VisualGraph) :
    Except String (List String) :=
  Except.map DotState.lines (runFrom DotWriter g (dotInit options g))

/-! ## The base `Writer` stream protocol (`open` / `write` / `close`) -/

/-- The stream-handling state of the base `Writer` class: the validated
`output` argument (`none` models Python `None`, i.e. standard output;
`some p` models a path or stream), the validated tabstop string
(`" " * tabstop`), the indentation level, and `_outstream`, which is
`none` until `open` is called and afterwards holds the lines written. -/
structure WriterCore where
  output : Option String
  tabstop : String
  indent_level : Int
  outstream : Option (List String)
deriving DecidableEq

/-- The message of the `IOError` raised by the `outstream` property when
the stream has not been opened. -/
def ioErrorMsg : String := "Stream isn't open yet. Please call method `open`."

/-- `Writer.open`: every branch (standard output, stream, or path) leaves
`_outstream` set; modelled as an empty line buffer. -/
def wopen (w : WriterCore) : WriterCore :=
  { w with outstream := some [] }

/-- `Writer.write`: accesses the `outstream` property (raising `IOError`
when the stream is not open) and emits exactly one line, prefixed by
`tabstop * indent_level`. -/
def wwrite (w : WriterCore) (line : String) : Except String WriterCore :=
  match w.outstream with
  | none => .error ioErrorMsg
  | some st =>
      .ok { w with
            outstream := some (st ++ [sRepInt w.tabstop w.indent_level ++ line]) }

/-- `Writer.close`: returns immediately when `output` is `None`; otherwise
it accesses the `outstream` property (raising `IOError` when the stream is
not open) and closes it. -/
def wclose (w : WriterCore) : Except String WriterCore :=
  match w.output with
  | none => .ok w
  | some _ =>
    match w.outstream with
    | none => .error ioErrorMsg
    | some _ => .ok w

/-! ## Option plumbing and writer dispatch in `main.py` -/

/-- The parsed command-line arguments relevant to graph assembly and
writer dispatch (`_get_parser` in `main.py`). -/
structure Args where
  format : String
  rankdir : String
  draw_defines : Bool
  draw_uses : Bool
  colored : Bool
  grouped_alt : Bool
  grouped : Bool
  nested_groups : Bool
  annotated : Bool
deriving DecidableEq

/-- The graph options dictionary built by `_get_graph_options`. -/
structure GraphOptions where
  draw_defines : Bool
  draw_uses : Bool
  colored : Bool
  grouped_alt : Bool
  grouped : Bool
  nested_groups : Bool
  annotated : Bool
deriving DecidableEq

/-- `_get_graph_options`: copies the seven option flags out of `args`. -/
def _get_graph_options (a : Args) : GraphOptions :=
  { draw_defines := a.draw_defines, draw_uses := a.draw_uses,
    colored := a.colored, grouped_alt := a.grouped_alt,
    grouped := a.grouped, nested_groups := a.nested_groups,
    annotated := a.annotated }

/-- The adjustment `main` performs before building the options:
`if args.nested_groups: args.grouped = True`. -/
def nestedGroupsAdjust (a : Args) : Args :=
  if a.nested_groups then { a with grouped := true } else a

/-- The graph options `main` passes to `VisualGraph.from_visitor`. -/
def mainGraphOptions (a : Args) : GraphOptions :=
  _get_graph_options (nestedGroupsAdjust a)

/-- `ALLOWED_FORMATS` from `main.py`. -/
def ALLOWED_FORMATS : List String := ["dot", "html", "tgf", "yed"]

/-- `DOT_FORMATS` from `main.py`. -/
def DOT_FORMATS : List String :=
  ["bmp", "cgimage", "canon", "dot", "gv", "xdot", "xdot1.2", "xdot1.4",
   "eps", "exr", "fig", "gd", "gd2", "gif", "gtk", "ico", "imap", "imap_np",
   "ismap", "cmap", "cmapx", "cmapx_np", "jpg", "jpeg", "jpe", "jp2", "json",
   "json0", "dot_json", "xdot_json", "pdf", "pic", "pct", "pict", "plain",
   "plain-ext", "png", "pov", "ps", "ps2", "psd", "sgi", "svg", "svgz",
   "tga", "tif", "tiff", "tk", "vml", "vmlz", "vrml", "wbmp", "webp",
   "xlib", "x11"]

/-- A Python value as far as the comparisons in `_write_graph` are
concerned: either a builtin function (such as the builtin `format`, which
is what the bare name `format` denotes inside `_write_graph`) or a string. -/
inductive PyVal where
  | builtin (name : String)
  | str (s : String)
deriving DecidableEq

/-- Python `==` on these values: a builtin function never equals a
string. -/
def pyEq : PyVal → PyVal → Bool
  | .str a, .str b => a == b
  | .builtin a, .builtin b => a == b
  | _, _ => false

/-- The writer classes `_write_graph` tries to construct. -/
inductive WriterKind where
  | dotW
  | htmlW
  | tgfW
  | yedW
  | dotConverter
deriving DecidableEq

/-- The names defined at top level by `writers.py` (no `DotConverter`
among them, although `main.py` imports that name from it). -/
def writersModuleDefs : List String :=
  ["Writer", "TgfWriter", "DotWriter", "DotAdapter", "SVGWriter",
   "HTMLWriter", "YedWriter"]

/-- The branch structure of `_write_graph`: raise `ValueError` when
`args.format` is outside the known formats, then dispatch on comparisons
of the bare name `format` — the Python builtin, not `args.format` —
against the format strings. -/
def write_graph_select (a : Args) : Except String WriterKind :=
  if (ALLOWED_FORMATS ++ DOT_FORMATS).contains a.format then
    if pyEq (.builtin "format") (.str "dot") then .ok .dotW
    else if pyEq (.builtin "format") (.str "html") then .ok .htmlW
    else if pyEq (.builtin "format") (.str "tgf") then .ok .tgfW
    else if pyEq (.builtin "format") (.str "yed") then .ok .yedW
    else .ok .dotConverter
  else .error "ValueError: Unknown format"

/-- `_write_graph` up to writer construction: reaching the final branch
requires resolving the name `DotConverter`, which `main.py` imports from
`writers.py`; since `writers.py` does not define it, that resolution
fails (modelled as a lookup in `writersModuleDefs`). -/
def write_graph (a : Args) : Except String WriterKind :=
  match write_graph_select a with
  | .error e => .error e
  | .ok .dotConverter =>
      if writersModuleDefs.contains "DotConverter" then .ok .dotConverter
      else .error "ImportError: cannot import name DotConverter from pyan.writers"
  | .ok k => .ok k

/-! ## The analysis-graph `filter` operation (C8)

`CallGraphVisitor.filter` lives in `analyzer.py`, which is not among the
available sources; it is modelled here from the specification. -/

/-- Modelled from the spec: a registry Node of the analysis graph
(`analyzer.py` is not among the available sources).  It carries a stable
identifier, a dotted namespace path, a name, and the visibility flag that
`filter` recomputes. -/
structure MNode where
  id : Nat
  nsPath : String
  name : String
  visible : Bool
deriving DecidableEq

/-- Modelled from the spec: a registry Edge between two Nodes (referenced
by identifier), with a flavor of `defines` or `uses`. -/
structure MEdge where
  source : Nat
  target : Nat
  flavor : String
deriving DecidableEq

/-- Modelled from the spec: the GraphModel registry — the full analyzed
node and edge records, which `filter` never deletes. -/
structure GraphModel where
  nodes : List MNode
  edges : List MEdge
deriving DecidableEq

/-- Whether some edge joins `a` and `b` in either direction. -/
def MEdge.joins (e : MEdge) (a b : Nat) : Bool :=
  (e.source == a && e.target == b) || (e.source == b && e.target == a)

/-- One expansion step of undirected reachability over the edge records:
keep every known-reachable id and add every id joined to one. -/
def expandReach (ids : List Nat) (es : List MEdge) (cur : List Nat) : List Nat :=
  ids.filter (fun x => cur.contains x ||
    es.any (fun e => cur.any (fun y => e.joins x y)))

/-- Iterated expansion. -/
def iterReach (ids : List Nat) (es : List MEdge) : Nat → List Nat → List Nat
  | 0, cur => cur
  | k + 1, cur => iterReach ids es k (expandReach ids es cur)

/-- Modelled from the spec: connectivity between two Nodes by following
`defines` and `uses` edges in either direction (graph connectivity, not
directed reachability). -/
def GraphModel.connected (G : GraphModel) (a b : Nat) : Bool :=
  (iterReach (G.nodes.map MNode.id) G.edges (G.nodes.map MNode.id).length [a]).contains b

/-- Modelled from the spec: the visibility `filter` assigns to a Node —
when a focal node is given, connectivity to it; when a namespace is
given, the namespace path must additionally start with that prefix; both
conditions intersect when both are supplied. -/
def computeVisible (G : GraphModel) (node : Option Nat) (ns : Option String)
    (n : MNode) : Bool :=
  (match node with
   | none => true
   | some x => G.connected x n.id) &&
  (match ns with
   | none => true
   | some p => p.isPrefixOf n.nsPath)

/-- Modelled from the spec: `filter(node?, namespace?)` recomputes the
visibility flag of every Node of the full analyzed graph in place,
deleting nothing. -/
def GraphModel.filter (G : GraphModel) (node : Option Nat) (ns : Option String) :
    GraphModel :=
  { G with nodes :=
      G.nodes.map (fun n => { n with visible := computeVisible G node ns n }) }

/-- The visible Nodes after filtering. -/
def GraphModel.visibleNodes (G : GraphModel) : List MNode :=
  G.nodes.filter (fun n => n.visible)

/-- Modelled from the spec: an Edge is visible iff both endpoints are
visible. -/
def GraphModel.visibleEdges (G : GraphModel) : List MEdge :=
  G.edges.filter (fun e =>
    G.nodes.any (fun n => n.id == e.source && n.visible) &&
    G.nodes.any (fun n => n.id == e.target && n.visible))

/-! ## Edge-locality helpers (C6) -/

mutual

/-- Apply `f` to the edge list stored at every level of a graph. -/
def mapEdgesAll (f : List VEdge → List VEdge) : VisualGraph → VisualGraph
  | .mk i l ns sgs es gr => .mk i l ns (mapEdgesAllList f sgs) (f es) gr

def mapEdgesAllList (f : List VEdge → List VEdge) :
    List VisualGraph → List VisualGraph
  | [] => []
  | g :: gs => mapEdgesAll f g :: mapEdgesAllList f gs

end

/-- Apply `f` to the edge lists of every strict subgraph, keeping the
top-level edge list intact. -/
def mapSubEdges (f : List VEdge → List VEdge) : VisualGraph → VisualGraph
  | .mk i l ns sgs es gr => .mk i l ns (mapEdgesAllList f sgs) es gr

/-! ## Output descriptors -/

/-- The TGF node lines produced from counter value `k` on, one line
`"<id> <label>"` per node with sequentially increasing ids, each line
prefixed by `p`. -/
def tgfNodeLines (p : String) (k : Nat) : List VNode → List String
  | [] => []
  | n :: rest => (p ++ (Nat.repr k ++ " " ++ n.label)) :: tgfNodeLines p (k + 1) rest

/-- The id-map entries registered while numbering `ns` from `k` on, most
recent first (as consing onto the association list leaves them). -/
def tgfIdMap (k : Nat) : List VNode → List (VNode × Nat)
  | [] => []
  | n :: rest => tgfIdMap (k + 1) rest ++ [(n, k)]

/-- Position of the first occurrence of a node in a list. -/
def posOf (n : VNode) : List VNode → Nat
  | [] => 0
  | m :: rest => if m = n then 0 else posOf n rest + 1

/-- The edge-section loop of a TGF run, abstracted from the writer state:
fold over the edges, resolving both endpoints in `m` (a missing endpoint
is the `KeyError`), appending one line per edge to `acc`. -/
def tgfEdgeFold (m : List (VNode × Nat)) (es : List VEdge) (acc : List String) :
    Except String (List String) :=
  match es with
  | [] => .ok acc
  | e :: rest =>
    match idLookup m e.source, idLookup m e.target with
    | some a, some b =>
        tgfEdgeFold m rest
          (acc ++ [Nat.repr a ++ " " ++ Nat.repr b ++ " " ++ tgfFlavorMark e])
    | _, _ => .error "KeyError"

mutual

/-- The lines `DotWriter` emits for one (sub)graph visited at indentation
`ind` with tab string `ts`: the `subgraph cluster_<id>` header, the
translucent fill and label line, this level's node statements, the nested
subgraphs one indentation level deeper, and the closing brace. -/
def dotSubLines (ts : String) (ind : Int) : VisualGraph → List String
  | .mk i l ns sgs _ _ =>
    (sRepInt ts ind ++ ("subgraph cluster_" ++ i ++ " \x7b\n")) ::
    (sRepInt ts (ind + 1) ++
      ("graph [style=\"filled,rounded\", fillcolor=\"#80808018\", label=\"" ++
        l ++ "\"];")) ::
    (ns.map (fun n => sRepInt ts (ind + 1) ++ dotNodeStmt n) ++
      (dotSubLinesList ts (ind + 1) sgs ++ [sRepInt ts ind ++ "\x7d"]))

def dotSubLinesList (ts : String) (ind : Int) : List VisualGraph → List String
  | [] => []
  | g :: gs => dotSubLines ts ind g ++ dotSubLinesList ts ind gs

end

/-- The lines of a successful writer result (empty on error). -/
def okLines : Except String (List String) → List String
  | .ok L => L
  | .error _ => []

/-- Whether the first list is an initial segment of the second. -/
def leadMatch : List Char → List Char → Bool
  | [], _ => true
  | _ :: _, [] => false
  | p :: ps, c :: cs => p == c && leadMatch ps cs

/-- Whether `pat` occurs as a contiguous segment. -/
def hasSubChars (pat : List Char) : List Char → Bool
  | [] => leadMatch pat []
  | c :: cs => leadMatch pat (c :: cs) || hasSubChars pat cs

/-- Whether `pat` occurs as a substring of `s`. -/
def containsSubStr (s pat : String) : Bool :=
  hasSubChars pat.data s.data

/-- Net brace balance of a character list (opening braces minus closing). -/
def braceDeltaChars : List Char → Int
  | [] => 0
  | c :: cs =>
    (if c = Char.ofNat 123 then 1 else if c = Char.ofNat 125 then -1 else 0) +
      braceDeltaChars cs

/-- Net brace balance over a list of lines. -/
def bracesTotal : List String → Int
  | [] => 0
  | s :: rest => braceDeltaChars s.data + bracesTotal rest

/-- Whether the braces over a list of lines balance out. -/
def bracesBalanced (ls : List String) : Bool :=
  bracesTotal ls == 0

/-! ## Lemmas about the TGF writer -/

theorem String_empty_append (s : String) : "" ++ s = s := rfl

theorem sRepInt_zero (t : String) : sRepInt t 0 = "" := rfl

theorem tgfNodeLines_append (p : String) (ys : List VNode) :
    ∀ (xs : List VNode) (k : Nat),
      tgfNodeLines p k (xs ++ ys) =
        tgfNodeLines p k xs ++ tgfNodeLines p (k + xs.length) ys := by
  intro xs
  induction xs with
  | nil => intro k; simp [tgfNodeLines]
  | cons x rest ih =>
      intro k
      simp only [List.cons_append, tgfNodeLines, List.append_eq]
      rw [ih]
      have h : k + 1 + rest.length = k + (x :: rest).length := by
        simp
        omega
      rw [h]

theorem tgfNodeLines_length (p : String) :
    ∀ (ns : List VNode) (k : Nat), (tgfNodeLines p k ns).length = ns.length := by
  intro ns
  induction ns with
  | nil => intro k; simp [tgfNodeLines]
  | cons n rest ih => intro k; simp [tgfNodeLines, ih]

theorem tgfIdMap_append (ys : List VNode) :
    ∀ (xs : List VNode) (k : Nat),
      tgfIdMap k (xs ++ ys) =
        tgfIdMap (k + xs.length) ys ++ tgfIdMap k xs := by
  intro xs
  induction xs with
  | nil => intro k; simp [tgfIdMap]
  | cons x rest ih =>
      intro k
      simp only [List.cons_append, tgfIdMap, List.append_eq]
      rw [ih]
      have h : k + 1 + rest.length = k + (x :: rest).length := by
        simp
        omega
      rw [h, List.append_assoc]

theorem foldME_cons_ok {α σ : Type} (f : α → σ → Except String σ) (a : α)
    (as : List α) (s s' : σ) (h : f a s = .ok s') :
    foldME f (a :: as) s = foldME f as s' := by
  simp [foldME, h]

theorem foldME_tgf_write_node (ns : List VNode) :
    ∀ (s : TgfState),
      foldME TgfWriter.write_node ns s =
        .ok { s with
              lines := s.lines ++
                tgfNodeLines (sRepInt s.tabstop s.indent_level) s.i ns,
              i := s.i + ns.length,
              id_map := tgfIdMap s.i ns ++ s.id_map } := by
  induction ns with
  | nil => intro s; simp [foldME, tgfNodeLines, tgfIdMap]
  | cons n rest ih =>
      intro s
      rw [foldME_cons_ok TgfWriter.write_node n rest s _ rfl, ih]
      simp only [tgfNodeLines, tgfIdMap, TgfState.mk.injEq, Except.ok.injEq]
      refine ⟨?_, ?_, ?_, rfl, rfl⟩ <;>
        first
          | rfl
          | (simp only [List.length_cons]; omega)
          | simp [tgfWrite, List.append_assoc]

theorem Except_bind_ok {ε α β : Type} (a : α) (f : α → Except ε β) :
    Except.bind (.ok a) f = f a := rfl

theorem Except_map_ok {ε α β : Type} (f : α → β) (a : α) :
    Except.map (ε := ε) f (.ok a) = .ok (f a) := rfl

mutual

theorem tgf_write_subgraph_eq (g : VisualGraph) (s : TgfState) :
    write_subgraph TgfWriter g s =
      .ok { s with
            lines := s.lines ++
              tgfNodeLines (sRepInt s.tabstop s.indent_level) s.i g.allNodes,
            i := s.i + g.allNodes.length,
            id_map := tgfIdMap s.i g.allNodes ++ s.id_map } := by
  cases g with
  | mk i l ns sgs es gr =>
      rw [write_subgraph,
        show TgfWriter.start_subgraph (VisualGraph.mk i l ns sgs es gr) s = .ok s
          from rfl,
        Except_bind_ok, foldME_tgf_write_node, Except_bind_ok,
        tgf_write_subgraphList_eq sgs, Except_bind_ok]
      simp only [VisualGraph.allNodes, TgfWriter, Except.ok.injEq,
        TgfState.mk.injEq, tgfNodeLines_append, tgfIdMap_append,
        List.length_append]
      and_intros <;> first | trivial | omega | simp [List.append_assoc]

theorem tgf_write_subgraphList_eq (gs : List VisualGraph) (s : TgfState) :
    write_subgraphList TgfWriter gs s =
      .ok { s with
            lines := s.lines ++
              tgfNodeLines (sRepInt s.tabstop s.indent_level) s.i (allNodesList gs),
            i := s.i + (allNodesList gs).length,
            id_map := tgfIdMap s.i (allNodesList gs) ++ s.id_map } := by
  cases gs with
  | nil => simp [write_subgraphList, allNodesList, tgfNodeLines, tgfIdMap]
  | cons g rest =>
      rw [write_subgraphList, tgf_write_subgraph_eq g, Except_bind_ok,
        tgf_write_subgraphList_eq rest]
      simp only [allNodesList, Except.ok.injEq, TgfState.mk.injEq,
        tgfNodeLines_append, tgfIdMap_append, List.length_append]
      and_intros <;> first | trivial | omega | simp [List.append_assoc]

end

theorem Except_bind_pure {ε α : Type} (E : Except ε α) :
    Except.bind E (fun a => Except.ok a) = E := by
  cases E <;> rfl

theorem foldME_tgf_write_edge (es : List VEdge) :
    ∀ (s : TgfState), sRepInt s.tabstop s.indent_level = "" →
      foldME TgfWriter.write_edge es s =
        Except.map (fun L => { s with lines := L })
          (tgfEdgeFold s.id_map es s.lines) := by
  induction es with
  | nil => intro s h; simp [foldME, tgfEdgeFold, Except.map]
  | cons e rest ih =>
      intro s h
      rcases hsv : idLookup s.id_map e.source with _ | a
      · simp [foldME, TgfWriter, tgfEdgeFold, hsv, Except.map]
      · rcases htv : idLookup s.id_map e.target with _ | b
        · simp [foldME, TgfWriter, tgfEdgeFold, hsv, htv, Except.map]
        · have hstep : TgfWriter.write_edge e s =
              .ok (tgfWrite s
                (Nat.repr a ++ " " ++ Nat.repr b ++ " " ++ tgfFlavorMark e)) := by
            simp [TgfWriter, hsv, htv]
          rw [foldME_cons_ok _ _ _ _ _ hstep, ih _ (by simp [tgfWrite, h])]
          simp [tgfWrite, tgfEdgeFold, hsv, htv, h, String_empty_append]

theorem tgfRun_eq (g : VisualGraph) :
    tgfRun g =
      tgfEdgeFold (tgfIdMap 1 g.allNodes) g.edges
        (tgfNodeLines "" 1 g.allNodes ++ ["#"]) := by
  unfold tgfRun runFrom
  rw [show TgfWriter.start_graph tgfInit = .ok tgfInit from rfl, Except_bind_ok,
    tgf_write_subgraph_eq, Except_bind_ok]
  unfold write_edges
  rw [show ∀ t, TgfWriter.start_edges t = .ok (tgfWrite t "#") from fun t => rfl,
    Except_bind_ok, foldME_tgf_write_edge _ _ (by rfl)]
  rcases hE : tgfEdgeFold (tgfIdMap 1 g.allNodes) g.edges
      (tgfNodeLines "" 1 g.allNodes ++ ["#"]) with e | L
  · simp only [tgfInit, tgfWrite]
    simp only [List.nil_append, List.append_nil, sRepInt_zero,
      String_empty_append]
    rw [hE]
    rfl
  · simp only [tgfInit, tgfWrite]
    simp only [List.nil_append, List.append_nil, sRepInt_zero,
      String_empty_append]
    rw [hE]
    rfl

theorem idLookup_append (xs ys : List (VNode × Nat)) (n : VNode) :
    idLookup (xs ++ ys) n =
      match idLookup xs n with
      | some v => some v
      | none => idLookup ys n := by
  induction xs with
  | nil => simp [idLookup]
  | cons p rest ih =>
      rcases p with ⟨k, v⟩
      by_cases h : k = n <;> simp [idLookup, h, ih]

theorem idLookup_tgfIdMap_not_mem (n : VNode) :
    ∀ (ns : List VNode) (k : Nat), n ∉ ns → idLookup (tgfIdMap k ns) n = none := by
  intro ns
  induction ns with
  | nil => intro k _; simp [tgfIdMap, idLookup]
  | cons m rest ih =>
      intro k h
      have h1 : n ∉ rest := fun hr => h (List.mem_cons_of_mem _ hr)
      have h2 : m ≠ n := fun he => h (he ▸ List.mem_cons_self _ _)
      simp [tgfIdMap, idLookup_append, ih _ h1, idLookup, h2]

theorem idLookup_tgfIdMap (n : VNode) :
    ∀ (ns : List VNode) (k : Nat), n ∈ ns → ns.Nodup →
      idLookup (tgfIdMap k ns) n = some (k + posOf n ns) := by
  intro ns
  induction ns with
  | nil => intro k h _; simp at h
  | cons m rest ih =>
      intro k hmem hnd
      have hnd1 : rest.Nodup := (List.nodup_cons.mp hnd).2
      have hm : m ∉ rest := (List.nodup_cons.mp hnd).1
      by_cases he : m = n
      · subst he
        simp [tgfIdMap, idLookup_append,
          idLookup_tgfIdMap_not_mem m rest (k + 1) hm, idLookup, posOf]
      · have hr : n ∈ rest := by
          rcases List.mem_cons.mp hmem with h | h
          · exact absurd h.symm he
          · exact h
        simp only [tgfIdMap]
        rw [idLookup_append, ih (k + 1) hr hnd1]
        simp only [posOf, he, if_false, Option.some.injEq]
        omega

theorem tgfEdgeFold_ok (m : List (VNode × Nat)) (es : List VEdge) :
    ∀ acc,
      (∀ e ∈ es, (idLookup m e.source).isSome ∧ (idLookup m e.target).isSome) →
      tgfEdgeFold m es acc =
        .ok (acc ++ es.map (fun e =>
          Nat.repr ((idLookup m e.source).getD 0) ++ " " ++
            Nat.repr ((idLookup m e.target).getD 0) ++ " " ++ tgfFlavorMark e)) := by
  induction es with
  | nil => intro acc _; simp [tgfEdgeFold]
  | cons e rest ih =>
      intro acc h
      obtain ⟨hs, ht⟩ := h e (List.mem_cons_self _ _)
      rcases hsv : idLookup m e.source with _ | a
      · rw [hsv] at hs; simp at hs
      · rcases htv : idLookup m e.target with _ | b
        · rw [htv] at ht; simp at ht
        · simp only [tgfEdgeFold, hsv, htv]
          rw [ih _ (fun x hx => h x (List.mem_cons_of_mem _ hx))]
          simp [hsv, htv, List.append_assoc]

/-! ## Lemmas about the dot writer -/

theorem sRepInt_tab_one : sRepInt "    " 1 = "    " := rfl

theorem foldME_dot_write_node (ns : List VNode) :
    ∀ (s : DotState),
      foldME DotWriter.write_node ns s =
        .ok { s with
              lines := s.lines ++ ns.map
                (fun n => sRepInt s.tabstop s.indent_level ++ dotNodeStmt n) } := by
  induction ns with
  | nil => intro s; simp [foldME]
  | cons n rest ih =>
      intro s
      rw [foldME_cons_ok DotWriter.write_node n rest s _ rfl, ih]
      simp [dotWrite, List.append_assoc]

theorem foldME_dot_write_edge (es : List VEdge) :
    ∀ (s : DotState),
      foldME DotWriter.write_edge es s =
        .ok { s with
              lines := s.lines ++ es.map
                (fun e => sRepInt s.tabstop s.indent_level ++ dotEdgeStmt e) } := by
  induction es with
  | nil => intro s; simp [foldME]
  | cons e rest ih =>
      intro s
      rw [foldME_cons_ok DotWriter.write_edge e rest s _ rfl, ih]
      simp [dotWrite, List.append_assoc]

mutual

theorem dot_write_subgraph_eq (g : VisualGraph) (s : DotState) :
    write_subgraph DotWriter g s =
      .ok { s with lines := s.lines ++ dotSubLines s.tabstop s.indent_level g } := by
  cases g with
  | mk i l ns sgs es gr =>
      rw [write_subgraph,
        show DotWriter.start_subgraph (VisualGraph.mk i l ns sgs es gr) s =
            .ok (dotWrite
              { dotWrite s ("subgraph cluster_" ++ i ++ " \x7b\n") with
                indent_level := s.indent_level + 1 }
              ("graph [style=\"filled,rounded\", fillcolor=\"#80808018\", label=\"" ++
                l ++ "\"];"))
          from rfl,
        Except_bind_ok, foldME_dot_write_node, Except_bind_ok,
        dot_write_subgraphList_eq sgs, Except_bind_ok,
        show ∀ t, DotWriter.finish_subgraph (VisualGraph.mk i l ns sgs es gr) t =
            .ok (dotWrite { t with indent_level := t.indent_level - 1 } "\x7d")
          from fun t => rfl]
      simp only [dotWrite, dotSubLines, Except.ok.injEq, DotState.mk.injEq]
      and_intros <;>
        first
          | trivial
          | omega
          | simp [List.append_assoc, Int.add_sub_cancel]

theorem dot_write_subgraphList_eq (gs : List VisualGraph) (s : DotState) :
    write_subgraphList DotWriter gs s =
      .ok { s with
            lines := s.lines ++ dotSubLinesList s.tabstop s.indent_level gs } := by
  cases gs with
  | nil => simp [write_subgraphList, dotSubLinesList]
  | cons g rest =>
      rw [write_subgraphList, dot_write_subgraph_eq g, Except_bind_ok,
        dot_write_subgraphList_eq rest]
      simp only [dotSubLinesList, Except.ok.injEq, DotState.mk.injEq]
      and_intros <;> first | trivial | simp [List.append_assoc]

end

theorem dotRun_eq (opts : List String) (g : VisualGraph) :
    dotRunLines opts g = .ok
      ("digraph G \x7b" ::
        ("    graph [" ++ dotOptionsStr opts g.grouped ++ "];") ::
        (dotSubLines "    " 1 g ++
          (g.edges.map (fun e => "    " ++ dotEdgeStmt e) ++ ["    \x7d"]))) := by
  unfold dotRunLines runFrom dotInit
  rw [show ∀ t, DotWriter.start_graph t =
        .ok { dotWrite (dotWrite t "digraph G \x7b")
                ("    graph [" ++ t.options ++ "];") with
              indent_level := t.indent_level + 1 }
      from fun t => rfl,
    Except_bind_ok, dot_write_subgraph_eq, Except_bind_ok]
  unfold write_edges
  rw [show ∀ t, DotWriter.start_edges t = .ok t from fun t => rfl,
    Except_bind_ok, foldME_dot_write_edge, Except_bind_ok,
    show ∀ t, DotWriter.finish_edges t = .ok t from fun t => rfl,
    Except_bind_ok,
    show ∀ t, DotWriter.finish_graph t = .ok (dotWrite t "\x7d")
      from fun t => rfl]
  simp only [dotWrite, Except_map_ok, Except.ok.injEq]
  simp [sRepInt_zero, sRepInt_tab_one, String_empty_append, List.append_assoc]

/-! ## Subgraph edges never influence writer output -/

mutual

theorem allNodes_mapEdgesAll (f : List VEdge → List VEdge) (g : VisualGraph) :
    (mapEdgesAll f g).allNodes = g.allNodes := by
  cases g with
  | mk i l ns sgs es gr =>
      simp only [mapEdgesAll, VisualGraph.allNodes,
        allNodesList_mapEdgesAllList f sgs]

theorem allNodesList_mapEdgesAllList (f : List VEdge → List VEdge)
    (gs : List VisualGraph) :
    allNodesList (mapEdgesAllList f gs) = allNodesList gs := by
  cases gs with
  | nil => rfl
  | cons g rest =>
      simp only [mapEdgesAllList, allNodesList, allNodes_mapEdgesAll f g,
        allNodesList_mapEdgesAllList f rest]

end

mutual

theorem dotSubLines_mapEdgesAll (f : List VEdge → List VEdge) (ts : String)
    (ind : Int) (g : VisualGraph) :
    dotSubLines ts ind (mapEdgesAll f g) = dotSubLines ts ind g := by
  cases g with
  | mk i l ns sgs es gr =>
      simp only [mapEdgesAll, dotSubLines,
        dotSubLinesList_mapEdgesAllList f ts (ind + 1) sgs]

theorem dotSubLinesList_mapEdgesAllList (f : List VEdge → List VEdge)
    (ts : String) (ind : Int) (gs : List VisualGraph) :
    dotSubLinesList ts ind (mapEdgesAllList f gs) = dotSubLinesList ts ind gs := by
  cases gs with
  | nil => rfl
  | cons g rest =>
      simp only [mapEdgesAllList, dotSubLinesList,
        dotSubLines_mapEdgesAll f ts ind g,
        dotSubLinesList_mapEdgesAllList f ts ind rest]

end

theorem mapSubEdges_edges (f : List VEdge → List VEdge) (g : VisualGraph) :
    (mapSubEdges f g).edges = g.edges := by
  cases g; rfl

theorem mapSubEdges_grouped (f : List VEdge → List VEdge) (g : VisualGraph) :
    (mapSubEdges f g).grouped = g.grouped := by
  cases g; rfl

theorem mapSubEdges_allNodes (f : List VEdge → List VEdge) (g : VisualGraph) :
    (mapSubEdges f g).allNodes = g.allNodes := by
  cases g with
  | mk i l ns sgs es gr =>
      simp only [mapSubEdges, VisualGraph.allNodes,
        allNodesList_mapEdgesAllList f sgs]

theorem mapSubEdges_dotSubLines (f : List VEdge → List VEdge) (ts : String)
    (ind : Int) (g : VisualGraph) :
    dotSubLines ts ind (mapSubEdges f g) = dotSubLines ts ind g := by
  cases g with
  | mk i l ns sgs es gr =>
      simp only [mapSubEdges, dotSubLines,
        dotSubLinesList_mapEdgesAllList f ts (ind + 1) sgs]

/-! ## Lemmas about the modelled `filter` -/

theorem filter_nodes_map_id (G : GraphModel) (node : Option Nat)
    (ns : Option String) :
    (G.filter node ns).nodes.map MNode.id = G.nodes.map MNode.id := by
  simp [GraphModel.filter, List.map_map, Function.comp]

theorem filter_edges (G : GraphModel) (node : Option Nat) (ns : Option String) :
    (G.filter node ns).edges = G.edges := rfl

theorem connected_filter (G : GraphModel) (node : Option Nat)
    (ns : Option String) (a b : Nat) :
    (G.filter node ns).connected a b = G.connected a b := by
  unfold GraphModel.connected
  rw [filter_nodes_map_id, filter_edges]

theorem computeVisible_update_visible (G : GraphModel) (node : Option Nat)
    (ns : Option String) (n : MNode) (v : Bool) :
    computeVisible G node ns { n with visible := v } =
      computeVisible G node ns n := by
  unfold computeVisible
  rcases node with _ | x <;> rcases ns with _ | p <;> simp

theorem computeVisible_filter (G : GraphModel) (node : Option Nat)
    (ns : Option String) (m : MNode) :
    computeVisible (G.filter node ns) node ns m = computeVisible G node ns m := by
  unfold computeVisible
  rcases node with _ | x <;> rcases ns with _ | p <;>
    simp [connected_filter]

theorem tgfNodeLines_getD (p : String) (d : VNode) :
    ∀ (ns : List VNode) (k j : Nat), j < ns.length →
      (tgfNodeLines p k ns).getD j "" =
        p ++ (Nat.repr (k + j) ++ " " ++ (ns.getD j d).label) := by
  intro ns
  induction ns with
  | nil => intro k j hj; simp at hj
  | cons n rest ih =>
      intro k j hj
      cases j with
      | zero => simp [tgfNodeLines]
      | succ j =>
          simp only [tgfNodeLines, List.getD_cons_succ]
          rw [ih (k + 1) j (by simpa using hj)]
          have h : k + 1 + j = k + (j + 1) := by omega
          rw [h]

/-- C1: a TGF run emits one line `"<id> <label>"` per visible node with
ids assigned sequentially from 1 in emission order, then the single `"#"`
separator line, then one line `"<source-id> <target-id> <marker>"` per
edge using the ids assigned to the endpoints.  The hypotheses state the
graph is well formed: node records are pairwise distinct and every edge
endpoint is among the visible nodes (otherwise `write_edge` raises
`KeyError`). -/
theorem claim_C1 (g : VisualGraph) (hnd : g.allNodes.Nodup)
    (hmem : ∀ e ∈ g.edges, e.source ∈ g.allNodes ∧ e.target ∈ g.allNodes) :
    tgfRun g = .ok (tgfNodeLines "" 1 g.allNodes ++ ["#"] ++
        g.edges.map (fun e =>
          Nat.repr (1 + posOf e.source g.allNodes) ++ " " ++
            Nat.repr (1 + posOf e.target g.allNodes) ++ " " ++ tgfFlavorMark e)) ∧
      (tgfNodeLines "" 1 g.allNodes).length = g.allNodes.length ∧
      ∀ (j : Nat), j < g.allNodes.length →
        (tgfNodeLines "" 1 g.allNodes).getD j "" =
          Nat.repr (1 + j) ++ " " ++
            (g.allNodes.getD j ⟨"", "", "", "", ""⟩).label := by
  have hlookS : ∀ e ∈ g.edges,
      idLookup (tgfIdMap 1 g.allNodes) e.source =
        some (1 + posOf e.source g.allNodes) :=
    fun e he => idLookup_tgfIdMap _ _ _ (hmem e he).1 hnd
  have hlookT : ∀ e ∈ g.edges,
      idLookup (tgfIdMap 1 g.allNodes) e.target =
        some (1 + posOf e.target g.allNodes) :=
    fun e he => idLookup_tgfIdMap _ _ _ (hmem e he).2 hnd
  refine ⟨?_, tgfNodeLines_length "" g.allNodes 1, ?_⟩
  · rw [tgfRun_eq,
      tgfEdgeFold_ok _ _ _ (fun e he =>
        ⟨by rw [hlookS e he]; rfl, by rw [hlookT e he]; rfl⟩)]
    refine congrArg Except.ok (congrArg _ ?_)
    refine List.map_congr_left (fun e he => ?_)
    rw [hlookS e he, hlookT e he]
    rfl
  · intro j hj
    rw [tgfNodeLines_getD "" ⟨"", "", "", "", ""⟩ g.allNodes 1 j hj]
    rfl

/-- Witness for C1 on a two-node, one-edge graph with a nested subgraph:
the hypotheses hold and the emitted text is the expected concrete TGF
document. -/
theorem claim_C1_witness :
    (VisualGraph.mk "G" ""
        [⟨"a", "A", "w", "k", "p"⟩]
        [.mk "H" "h" [⟨"b", "B", "w", "k", "p"⟩] [] [] true]
        [⟨⟨"a", "A", "w", "k", "p"⟩, ⟨"b", "B", "w", "k", "p"⟩, "uses", "c"⟩]
        false).allNodes.Nodup ∧
    tgfRun (VisualGraph.mk "G" ""
        [⟨"a", "A", "w", "k", "p"⟩]
        [.mk "H" "h" [⟨"b", "B", "w", "k", "p"⟩] [] [] true]
        [⟨⟨"a", "A", "w", "k", "p"⟩, ⟨"b", "B", "w", "k", "p"⟩, "uses", "c"⟩]
        false) = .ok ["1 A", "2 B", "#", "1 2 U"] := by
  refine ⟨by decide, ?_⟩
  have h := claim_C1 (VisualGraph.mk "G" ""
    [⟨"a", "A", "w", "k", "p"⟩]
    [.mk "H" "h" [⟨"b", "B", "w", "k", "p"⟩] [] [] true]
    [⟨⟨"a", "A", "w", "k", "p"⟩, ⟨"b", "B", "w", "k", "p"⟩, "uses", "c"⟩]
    false) (by decide) (by decide)
  rw [h.1]
  rfl

/-- C2: for an edge of one of the two specified flavors, the TGF edge
marker computed by `TgfWriter.write_edge` is `"U"` exactly when the flavor
is `uses` and `"D"` exactly when it is `defines`. -/
theorem claim_C2 (e : VEdge) (h : e.flavor = "uses" ∨ e.flavor = "defines") :
    (tgfFlavorMark e = "U" ↔ e.flavor = "uses") ∧
    (tgfFlavorMark e = "D" ↔ e.flavor = "defines") := by
  unfold tgfFlavorMark
  rcases h with h | h <;> rw [h] <;> constructor <;> constructor <;> intro h2 <;>
    first | rfl | (exfalso; revert h2; decide)

/-- Witness for C2 at a concrete `uses` edge. -/
theorem claim_C2_witness :
    (tgfFlavorMark ⟨⟨"a", "A", "", "", ""⟩, ⟨"b", "B", "", "", ""⟩, "uses", ""⟩ = "U" ↔
      (⟨⟨"a", "A", "", "", ""⟩, ⟨"b", "B", "", "", ""⟩, "uses", ""⟩ : VEdge).flavor = "uses") ∧
    (tgfFlavorMark ⟨⟨"a", "A", "", "", ""⟩, ⟨"b", "B", "", "", ""⟩, "uses", ""⟩ = "D" ↔
      (⟨⟨"a", "A", "", "", ""⟩, ⟨"b", "B", "", "", ""⟩, "uses", ""⟩ : VEdge).flavor = "defines") :=
  claim_C2 _ (Or.inl rfl)

/-- C3: a dot run emits exactly one edge statement per visible edge (the
whole edge section is the image of the visible edge list, placed just
before the closing brace); each statement is styled `dashed` when the
flavor is `defines` and `solid` when it is `uses`, and every edge
statement carries a `color` attribute. -/
theorem claim_C3 (opts : List String) (g : VisualGraph) :
    (∃ pre, dotRunLines opts g = .ok (pre ++
        (g.edges.map (fun e => "    " ++ dotEdgeStmt e) ++ ["    \x7d"]))) ∧
    (∀ e : VEdge, e.flavor = "defines" → ∃ a b,
        dotEdgeStmt e = a ++ "style=\"dashed\"" ++ b) ∧
    (∀ e : VEdge, e.flavor = "uses" → ∃ a b,
        dotEdgeStmt e = a ++ "style=\"solid\"" ++ b) ∧
    (∀ e : VEdge, ∃ a b, dotEdgeStmt e = a ++ "color=\"" ++ b) := by
  refine ⟨⟨"digraph G \x7b" ::
      ("    graph [" ++ dotOptionsStr opts g.grouped ++ "];") ::
      dotSubLines "    " 1 g, ?_⟩, ?_, ?_, ?_⟩
  · rw [dotRun_eq]
    simp [List.append_assoc]
  · intro e h
    refine ⟨"    " ++ e.source.id ++ " -> " ++ e.target.id ++ " [",
      ",  color=\"" ++ e.color ++ "\"];", ?_⟩
    simp only [dotEdgeStmt, h, if_pos]
    rw [show (" [style=\"dashed\",  color=\"" : String) =
          " [" ++ "style=\"dashed\"" ++ ",  color=\"" from rfl]
    simp only [String.append_assoc]
  · intro e h
    refine ⟨"    " ++ e.source.id ++ " -> " ++ e.target.id ++ " [",
      ",  color=\"" ++ e.color ++ "\"];", ?_⟩
    have hne : e.flavor ≠ "defines" := by rw [h]; decide
    simp only [dotEdgeStmt, hne, if_false]
    rw [show (" [style=\"solid\",  color=\"" : String) =
          " [" ++ "style=\"solid\"" ++ ",  color=\"" from rfl]
    simp only [String.append_assoc]
  · intro e
    by_cases h : e.flavor = "defines"
    · refine ⟨"    " ++ e.source.id ++ " -> " ++ e.target.id ++
        " [style=\"dashed\",  ", e.color ++ "\"];", ?_⟩
      simp only [dotEdgeStmt, h, if_pos]
      rw [show (" [style=\"dashed\",  color=\"" : String) =
            " [style=\"dashed\",  " ++ "color=\"" from rfl]
      simp [String.append_assoc]
    · refine ⟨"    " ++ e.source.id ++ " -> " ++ e.target.id ++
        " [style=\"solid\",  ", e.color ++ "\"];", ?_⟩
      simp only [dotEdgeStmt, h, if_false]
      rw [show (" [style=\"solid\",  color=\"" : String) =
            " [style=\"solid\",  " ++ "color=\"" from rfl]
      simp [String.append_assoc]

/-- Witness for C3 on a one-edge graph: the run output has the edge
section before the closing brace and the concrete edge statement is the
solid one with a color attribute. -/
theorem claim_C3_witness :
    ∃ pre,
      dotRunLines ["rankdir=TB"]
          (VisualGraph.mk "G" "" [⟨"a", "A", "w", "k", "p"⟩] []
            [⟨⟨"a", "A", "w", "k", "p"⟩, ⟨"a", "A", "w", "k", "p"⟩, "uses", "c"⟩]
            false) =
        .ok (pre ++
          ([⟨⟨"a", "A", "w", "k", "p"⟩, ⟨"a", "A", "w", "k", "p"⟩, "uses", "c"⟩].map
              (fun e => "    " ++ dotEdgeStmt e) ++ ["    \x7d"])) :=
  (claim_C3 ["rankdir=TB"]
    (VisualGraph.mk "G" "" [⟨"a", "A", "w", "k", "p"⟩] []
      [⟨⟨"a", "A", "w", "k", "p"⟩, ⟨"a", "A", "w", "k", "p"⟩, "uses", "c"⟩]
      false)).1

/-- C4: after `main`'s adjustment (`if args.nested_groups: args.grouped =
True`), the options dictionary handed to graph assembly can never carry
`nested_groups` without `grouped`. -/
theorem claim_C4 (a : Args) :
    (mainGraphOptions a).nested_groups = true →
      (mainGraphOptions a).grouped = true := by
  unfold mainGraphOptions nestedGroupsAdjust _get_graph_options
  rcases hb : a.nested_groups <;> simp [hb]

/-- Witness for C4 at arguments with `nested_groups` on and `grouped`
off. -/
theorem claim_C4_witness :
    (mainGraphOptions
        ⟨"dot", "TB", true, true, false, false, false, true, false⟩).nested_groups = true ∧
    (mainGraphOptions
        ⟨"dot", "TB", true, true, false, false, false, true, false⟩).grouped = true :=
  ⟨rfl, claim_C4 _ rfl⟩

/-- Counterexample to C5: on an empty, ungrouped graph the dot writer
still emits a `subgraph cluster_` block (for the top-level graph object),
because `Writer.run` calls `write_subgraph` on the whole graph and
`DotWriter.start_subgraph` writes the cluster header unconditionally.  So
"when grouping is off, no subgraph cluster block is emitted" fails. -/
theorem claim_C5_cex :
    (VisualGraph.mk "G" "" [] [] [] false).grouped = false ∧
    ((okLines (dotRunLines ["rankdir=TB"]
          (VisualGraph.mk "G" "" [] [] [] false))).filter
        (fun l => containsSubStr l "subgraph cluster_")).length = 1 := by
  constructor
  · rfl
  · rfl

/-- C5 (amended): every dot run — grouped or not — emits exactly one
`subgraph cluster_<id>` block for the graph object itself and,
recursively, one per nested Group, nested following the hierarchy (each
level indented one step deeper), each block carrying the translucent fill
attribute line with its label; no other part of the run emits cluster
blocks. -/
theorem claim_C5_amended (opts : List String) (ts : String) (ind : Int)
    (g : VisualGraph) :
    dotRunLines opts g = .ok
      ("digraph G \x7b" ::
        ("    graph [" ++ dotOptionsStr opts g.grouped ++ "];") ::
        (dotSubLines "    " 1 g ++
          (g.edges.map (fun e => "    " ++ dotEdgeStmt e) ++ ["    \x7d"]))) ∧
    (∀ (i l : String) (ns : List VNode) (sgs : List VisualGraph)
        (es : List VEdge) (gr : Bool),
      dotSubLines ts ind (.mk i l ns sgs es gr) =
        (sRepInt ts ind ++ ("subgraph cluster_" ++ i ++ " \x7b\n")) ::
        (sRepInt ts (ind + 1) ++
          ("graph [style=\"filled,rounded\", fillcolor=\"#80808018\", label=\"" ++
            l ++ "\"];")) ::
        (ns.map (fun n => sRepInt ts (ind + 1) ++ dotNodeStmt n) ++
          (dotSubLinesList ts (ind + 1) sgs ++ [sRepInt ts ind ++ "\x7d"]))) ∧
    (∀ gs : List VisualGraph,
      dotSubLinesList ts ind gs = (gs.map (dotSubLines ts ind)).flatten) := by
  refine ⟨dotRun_eq opts g, fun i l ns sgs es gr => rfl, ?_⟩
  intro gs
  induction gs with
  | nil => rfl
  | cons g1 rest ih => simp [dotSubLinesList, ih]

/-- C6: in every writer run, the edge lists stored on nested subgraphs
never influence the output (only the top-level graph object's `.edges` is
consulted), and all edge output comes after the entire node-and-subgraph
section — for the dot writer the edge statements sit between the subgraph
section and the closing brace, and for the TGF writer the whole run is the
node section, then `"#"`, then the edge fold over the top-level edges. -/
theorem claim_C6 (opts : List String) (g : VisualGraph)
    (f : List VEdge → List VEdge) :
    tgfRun (mapSubEdges f g) = tgfRun g ∧
    dotRunLines opts (mapSubEdges f g) = dotRunLines opts g ∧
    dotRunLines opts g = .ok
      (("digraph G \x7b" ::
        ("    graph [" ++ dotOptionsStr opts g.grouped ++ "];") ::
        dotSubLines "    " 1 g) ++
        (g.edges.map (fun e => "    " ++ dotEdgeStmt e) ++ ["    \x7d"])) ∧
    tgfRun g =
      tgfEdgeFold (tgfIdMap 1 g.allNodes) g.edges
        (tgfNodeLines "" 1 g.allNodes ++ ["#"]) := by
  refine ⟨?_, ?_, ?_, tgfRun_eq g⟩
  · rw [tgfRun_eq, tgfRun_eq, mapSubEdges_allNodes, mapSubEdges_edges]
  · rw [dotRun_eq, dotRun_eq, mapSubEdges_edges, mapSubEdges_grouped,
      mapSubEdges_dotSubLines]
  · rw [dotRun_eq]
    simp [List.append_assoc]

/-- C7: on an empty visible graph (no nodes, no subgraphs, no edges, as a
filter matching nothing produces) both writers complete without raising:
the TGF writer emits exactly the `"#"` separator with zero node and edge
lines, whatever the graph's id, label and grouped flag; the dot writer
emits a properly opened and closed digraph block (the concrete six lines,
whose braces balance). -/
theorem claim_C7 :
    (∀ (i l : String) (gr : Bool),
      tgfRun (VisualGraph.mk i l [] [] [] gr) = .ok ["#"]) ∧
    dotRunLines ["rankdir=TB"] (VisualGraph.mk "G" "" [] [] [] false) = .ok
      ["digraph G \x7b", "    graph [rankdir=TB];",
       "    subgraph cluster_G \x7b\n",
       "        graph [style=\"filled,rounded\", fillcolor=\"#80808018\", label=\"\"];",
       "    \x7d", "    \x7d"] ∧
    bracesBalanced
      ["digraph G \x7b", "    graph [rankdir=TB];",
       "    subgraph cluster_G \x7b\n",
       "        graph [style=\"filled,rounded\", fillcolor=\"#80808018\", label=\"\"];",
       "    \x7d", "    \x7d"] = true := by
  refine ⟨?_, rfl, rfl⟩
  intro i l gr
  rw [tgfRun_eq]
  rfl

/-- C8 (filter modelled from the spec, `analyzer.py` not being among the
sources): `filter` recomputes visibility from the full analyzed graph, so
calling it twice with identical arguments equals calling it once, and the
visible node and edge sets agree. -/
theorem claim_C8 (G : GraphModel) (node : Option Nat) (ns : Option String) :
    (G.filter node ns).filter node ns = G.filter node ns ∧
    ((G.filter node ns).filter node ns).visibleNodes =
      (G.filter node ns).visibleNodes ∧
    ((G.filter node ns).filter node ns).visibleEdges =
      (G.filter node ns).visibleEdges := by
  have hmain : (G.filter node ns).filter node ns = G.filter node ns := by
    show (⟨(G.nodes.map
          (fun n => ({ n with visible := computeVisible G node ns n } : MNode))).map
            (fun m => ({ m with
              visible := computeVisible (G.filter node ns) node ns m } : MNode)),
        G.edges⟩ : GraphModel) =
      ⟨G.nodes.map
          (fun n => ({ n with visible := computeVisible G node ns n } : MNode)),
        G.edges⟩
    congr 1
    rw [List.map_map]
    refine List.map_congr_left (fun n _ => ?_)
    simp only [Function.comp]
    rw [computeVisible_filter]
    rfl
  exact ⟨hmain, by rw [hmain], by rw [hmain]⟩

/-- C9: inside `_write_graph` every branch guard compares the Python
builtin `format` — not `args.format` — with a format string, so each guard
is false: no run constructs `DotWriter`, `HTMLWriter`, `TgfWriter` or
`YedWriter`; whenever `args.format` passes the known-format check, control
reaches the final else branch, which names `DotConverter` — a symbol
`writers.py` does not define — so the write step raises for every
argument vector (an invalid format raises `ValueError`, a valid one fails
on `DotConverter`). -/
theorem claim_C9 (a : Args) :
    (∀ k, write_graph_select a = .ok k → k = WriterKind.dotConverter) ∧
    ((ALLOWED_FORMATS ++ DOT_FORMATS).contains a.format = true →
      write_graph_select a = .ok .dotConverter) ∧
    writersModuleDefs.contains "DotConverter" = false ∧
    ∃ msg, write_graph a = .error msg := by
  have hval : write_graph_select a =
      (if (ALLOWED_FORMATS ++ DOT_FORMATS).contains a.format then
        .ok .dotConverter else .error "ValueError: Unknown format") := by
    unfold write_graph_select
    rcases h : (ALLOWED_FORMATS ++ DOT_FORMATS).contains a.format with _ | _ <;>
      simp [h, pyEq]
  rcases hc : (ALLOWED_FORMATS ++ DOT_FORMATS).contains a.format with _ | _
  · rw [hc] at hval
    simp only [Bool.false_eq_true, if_false] at hval
    refine ⟨?_, ?_, rfl, ?_⟩
    · intro k hk
      rw [hval] at hk
      cases hk
    · intro hcon
      exact (Bool.false_ne_true hcon).elim
    · refine ⟨"ValueError: Unknown format", ?_⟩
      unfold write_graph
      rw [hval]
  · rw [hc] at hval
    simp only [if_true] at hval
    refine ⟨?_, fun _ => hval, rfl, ?_⟩
    · intro k hk
      rw [hval] at hk
      exact (Except.ok.inj hk).symm
    · refine ⟨"ImportError: cannot import name DotConverter from pyan.writers", ?_⟩
      unfold write_graph
      rw [hval]
      rfl

/-- Witness for C9 at `--format dot`: the selection still reaches the
`DotConverter` branch and the write step raises. -/
theorem claim_C9_witness :
    write_graph_select
        ⟨"dot", "TB", true, true, false, false, false, false, false⟩ =
      .ok .dotConverter ∧
    ∃ msg, write_graph
        ⟨"dot", "TB", true, true, false, false, false, false, false⟩ =
      .error msg :=
  ⟨(claim_C9 _).2.1 rfl, (claim_C9 _).2.2.2⟩

/-- C10: accessing the output stream before `open` — through `write`, or
through `close` when `output` is not `None` — raises the `IOError`; once
`open` has run the stream is set, and each `write` appends exactly one
line equal to `tabstop * indent_level` followed by the payload. -/
theorem claim_C10 (w : WriterCore) (line : String) :
    (w.outstream = none →
      wwrite w line = .error ioErrorMsg ∧
      (w.output ≠ none → wclose w = .error ioErrorMsg)) ∧
    (wopen w).outstream = some [] ∧
    (∀ st, w.outstream = some st →
      wwrite w line = .ok { w with
        outstream := some (st ++ [sRepInt w.tabstop w.indent_level ++ line]) }) := by
  refine ⟨?_, rfl, ?_⟩
  · intro h
    constructor
    · simp [wwrite, h]
    · intro ho
      rcases hout : w.output with _ | p
      · exact absurd hout ho
      · simp [wclose, hout, h]
  · intro st hst
    simp [wwrite, hst]

/-- Witness for C10: a writer constructed with a file output and an unset
stream raises on `write` and on `close`; after `open`, a `write` at
indentation 1 emits the one tab-prefixed line. -/
theorem claim_C10_witness :
    wwrite ⟨some "out", "    ", 0, none⟩ "x" = .error ioErrorMsg ∧
    wclose ⟨some "out", "    ", 0, none⟩ = .error ioErrorMsg ∧
    (wopen ⟨some "out", "    ", 0, none⟩).outstream = some [] ∧
    wwrite ⟨some "out", "    ", 1, some []⟩ "digraph" =
      .ok ⟨some "out", "    ", 1, some ["    digraph"]⟩ := by
  have h1 := claim_C10 ⟨some "out", "    ", 0, none⟩ "x"
  have h2 := claim_C10 ⟨some "out", "    ", 1, some []⟩ "digraph"
  refine ⟨(h1.1 rfl).1, (h1.1 rfl).2 (by simp), h1.2.1, ?_⟩
  rw [h2.2.2 [] rfl]
  rfl

end Pyan
